import Mathlib

/-!
Shallow embedding of the BeneDict repository (SurrealAI/BeneDict):
the attribute-addressable container `BeneDict` (src/benedict/__init__.py),
the order-preserving variant `OrderedBeneDict` (src/benedict/ordered.py),
and the configuration default-merging engine (src/benedict/config.py).

Python values are modelled by the inductive type `PyVal`.  A plain `dict`
and a `collections.OrderedDict` are both modelled by the `vdict`
constructor (Python `==` identifies them, and ordering is explicit in the
entry list anyway); `BeneDict` instances are `vbene`, `OrderedBeneDict`
instances are `vobene`.  Python floats are opaque scalar tags (numerator
and denominator); no floating-point arithmetic occurs anywhere in the
embedded code, the tags are only stored and compared.  Python exceptions
are modelled with `Except PyErr`.
-/

/-- A Python runtime value, restricted to the types the embedded code
manipulates.  `vdict` covers both `dict` and `OrderedDict`; `vbene` is a
`BeneDict` instance (a `dict` subclass); `vobene` is an `OrderedBeneDict`
instance (an `OrderedDict` subclass).  Mapping entries are kept as an
insertion-ordered association list, exactly like a CPython dict. -/
inductive PyVal where
  | vstr (s : String)
  | vint (n : Int)
  | vbool (b : Bool)
  | vfloat (num : Int) (den : Nat)
  | vnone
  | vlist (elems : List PyVal)
  | vtuple (elems : List PyVal)
  | vdict (entries : List (PyVal × PyVal))
  | vbene (entries : List (PyVal × PyVal))
  | vobene (entries : List (PyVal × PyVal))

/-- Python exceptions raised by the embedded code. -/
inductive PyErr where
  | valueError (msg : String)
  | typeError (msg : String)
  | attributeError (msg : String)
  | assertionError
  | configError (msg : String)
deriving DecidableEq

mutual

/-- Python `==` on the embedded values.  Values of distinct constructors
compare unequal; this is exact for every comparison the verified code
performs (the code only ever compares placeholder strings and dict keys
of matching types; Python quirks such as `True == 1` are outside the
exercised comparisons). -/
def pyBeq : PyVal → PyVal → Bool
  | .vstr a, .vstr b => a == b
  | .vint a, .vint b => a == b
  | .vbool a, .vbool b => a == b
  | .vfloat a b, .vfloat c d => a == c && b == d
  | .vnone, .vnone => true
  | .vlist a, .vlist b => pyBeqList a b
  | .vtuple a, .vtuple b => pyBeqList a b
  | .vdict a, .vdict b => pyBeqEntries a b
  | .vbene a, .vbene b => pyBeqEntries a b
  | .vobene a, .vobene b => pyBeqEntries a b
  | _, _ => false

/-- Element-wise `==` on sequences. -/
def pyBeqList : List PyVal → List PyVal → Bool
  | [], [] => true
  | a :: as, b :: bs => pyBeq a b && pyBeqList as bs
  | _, _ => false

/-- Entry-wise `==` on mapping entry lists. -/
def pyBeqEntries : List (PyVal × PyVal) → List (PyVal × PyVal) → Bool
  | [], [] => true
  | (k, v) :: as, (k', v') :: bs => pyBeq k k' && pyBeq v v' && pyBeqEntries as bs
  | _, _ => false

end

/-- Python `isinstance(x, str)`. -/
def pyIsStr : PyVal → Bool
  | .vstr _ => true
  | _ => false

/-- Python `isinstance(x, bool)`. -/
def pyIsBool : PyVal → Bool
  | .vbool _ => true
  | _ => false

/-- Python `isinstance(x, int)`.  `bool` is a subclass of `int` in Python,
so booleans satisfy this check. -/
def pyIsInt : PyVal → Bool
  | .vint _ => true
  | .vbool _ => true
  | _ => false

/-- Python `isinstance(x, float)` (booleans and ints are not floats). -/
def pyIsFloat : PyVal → Bool
  | .vfloat _ _ => true
  | _ => false

/-- Python `isinstance(x, list)` (tuples are not lists). -/
def pyIsList : PyVal → Bool
  | .vlist _ => true
  | _ => false

/-- Python `isinstance(x, dict)`: `dict`, `BeneDict` (a `dict` subclass),
`OrderedDict` and `OrderedBeneDict` (subclasses of `OrderedDict`, itself a
`dict` subclass) all satisfy it.  `collections.abc.Mapping` holds for
exactly the same set of `PyVal` constructors, so this predicate also
models the `isinstance(x, abc.Mapping)` checks in ordered.py. -/
def pyIsDict : PyVal → Bool
  | .vdict _ => true
  | .vbene _ => true
  | .vobene _ => true
  | _ => false

/-- Entry list of a mapping value (`dict.items`); `[]` on non-mappings. -/
def dictEntries : PyVal → List (PyVal × PyVal)
  | .vdict es => es
  | .vbene es => es
  | .vobene es => es
  | _ => []

/-- CPython dict lookup `d[k]` (and the `k in d` test) over the ordered
entry list: the first (unique, in a real dict) entry with an `==` key. -/
def pyLookup : List (PyVal × PyVal) → PyVal → Option PyVal
  | [], _ => none
  | (k', v') :: rest, k => if pyBeq k' k then some v' else pyLookup rest k

/-- CPython dict store `d[k] = v`: replace the value in place if the key
is present (keeping its position and the original key object), otherwise
append the new entry at the end. -/
def pySetItem : List (PyVal × PyVal) → PyVal → PyVal → List (PyVal × PyVal)
  | [], k, v => [(k, v)]
  | (k', v') :: rest, k, v =>
      if pyBeq k' k then (k', v) :: rest else (k', v') :: pySetItem rest k v

/-! ## BeneDict (src/benedict/__init__.py)

`_get_special_methods` builds the list of native method names and the
`builtin_`-prefixed protected names:

    methods = ['keys', 'items', 'values', 'get', 'clear',
               'update', 'pop', 'popitem', 'to_dict', 'deepcopy']
    for action in ['load', 'dump']:
        for mode in ['s', '']:
            for format in ['json', 'yaml']:
                methods.append(action + mode + '_' + format)
    protected = ['builtin_' + m for m in methods]
    return methods + protected, protected
-/

/-- The ten hand-listed method names of `_get_special_methods`. -/
def _BeneDict_base_methods : List String :=
  ["keys", "items", "values", "get", "clear",
   "update", "pop", "popitem", "to_dict", "deepcopy"]

/-- The loop-generated serialization method names of
`_get_special_methods`, in the loop's iteration order. -/
def _BeneDict_serialization_methods : List String :=
  (["load", "dump"].map (fun action =>
    (["s", ""].map (fun mode =>
      (["json", "yaml"].map (fun format =>
        action ++ mode ++ "_" ++ format)))).flatten)).flatten

/-- The full `methods` list built by `_get_special_methods`. -/
def _BeneDict_method_names : List String :=
  _BeneDict_base_methods ++ _BeneDict_serialization_methods

/-- `_BeneDict_PROTECTED_METHODS`: the `builtin_`-prefixed names.  These
are the only names `BeneDict.__setattr__` refuses to assign. -/
def _BeneDict_PROTECTED_METHODS : List String :=
  _BeneDict_method_names.map (fun m => "builtin_" ++ m)

/-- `_BeneDict_NATIVE_METHODS`: `methods + protected`. -/
def _BeneDict_NATIVE_METHODS : List String :=
  _BeneDict_method_names ++ _BeneDict_PROTECTED_METHODS

/-- The protected-name test of `BeneDict.__setattr__`:
`name in _BeneDict_PROTECTED_METHODS`.  A non-string name is never equal
to any of the protected strings. -/
def beneIsProtectedName : PyVal → Bool
  | .vstr s => _BeneDict_PROTECTED_METHODS.contains s
  | _ => false

/-- The `ValueError` message of `BeneDict.__setattr__` for a protected
name (`name` is a string whenever the error fires). -/
def beneProtectedMsg (name : PyVal) : String :=
  "Cannot override `" ++ (match name with | .vstr s => s | _ => "") ++
    "`: BeneDict protected method"

mutual

/-- The per-element conversion inside the sequence branch of
`BeneDict.__setattr__`: `self.__class__(x) if isinstance(x, dict) else x`.
Constructing a `BeneDict` from a mapping runs `__init__`, i.e.
`beneInitLoop [] entries`. -/
def beneNormElem (x : PyVal) : Except PyErr PyVal :=
  match x with
  | .vdict es => .vbene <$> beneInitLoop [] es
  | .vbene es => .vbene <$> beneInitLoop [] es
  | .vobene es => .vbene <$> beneInitLoop [] es
  | x => pure x

/-- Element-wise traversal of the list comprehension
`[self.__class__(x) if isinstance(x, dict) else x for x in value]`. -/
def beneNormList (xs : List PyVal) : Except PyErr (List PyVal) :=
  match xs with
  | [] => pure []
  | x :: rest => do
      let x' ← beneNormElem x
      let rest' ← beneNormList rest
      pure (x' :: rest')

/-- The value-normalization step of `BeneDict.__setattr__`: a list or
tuple value becomes a (plain Python) *list* of converted elements — the
source builds a list comprehension, so the original sequence kind is
lost; a mapping value becomes `self.__class__(value)`, i.e. a `BeneDict`;
anything else passes through unchanged. -/
def beneNormalizeValue (v : PyVal) : Except PyErr PyVal :=
  match v with
  | .vlist xs => .vlist <$> beneNormList xs
  | .vtuple xs => .vlist <$> beneNormList xs
  | .vdict es => .vbene <$> beneInitLoop [] es
  | .vbene es => .vbene <$> beneInitLoop [] es
  | .vobene es => .vbene <$> beneInitLoop [] es
  | v => pure v

/-- The loop of `BeneDict.__init__`: `for k, v in dict.items(d):
setattr(self, k, v)`.  The `setattr` builtin requires a string attribute
name and raises `TypeError` before dispatching to `__setattr__`
otherwise; for a string name the body of `__setattr__` is inlined here
(protected-name check, value normalization, the attribute write and the
item write).  The state tracked is the dict backing store; the instance
`__dict__` receives the same bindings and stays its mirror.  (The
trailing class-attribute loop of `__init__` is vacuous for the `BeneDict`
class itself: every entry of `BeneDict.__dict__` is either dunder-named
or listed in `_BeneDict_NATIVE_METHODS`, so it is skipped.) -/
def beneInitLoop (st : List (PyVal × PyVal)) (entries : List (PyVal × PyVal)) :
    Except PyErr (List (PyVal × PyVal)) :=
  match entries with
  | [] => pure st
  | (k, v) :: rest =>
      match k with
      | .vstr _ =>
          if beneIsProtectedName k then throw (.valueError (beneProtectedMsg k))
          else do
            let v' ← beneNormalizeValue v
            beneInitLoop (pySetItem st k v') rest
      | _ => throw (.typeError "attribute name must be string")

end

/-- `BeneDict.__setattr__(name, value)` (also `__setitem__`, which is the
same function object): refuse protected names with `ValueError`, then
normalize the value, then `super().__setattr__(name, value)` — which is
`object.__setattr__` and raises `TypeError` for a non-string name — and
finally `super().__setitem__(name, value)`.  The state tracked here is
the dict backing store; for string names the instance `__dict__` receives
the same binding, so the two stay mirrors of each other. -/
def beneSetattr (st : List (PyVal × PyVal)) (name : PyVal) (value : PyVal) :
    Except PyErr (List (PyVal × PyVal)) :=
  if beneIsProtectedName name then throw (.valueError (beneProtectedMsg name))
  else do
    let value ← beneNormalizeValue value
    match name with
    | .vstr _ => pure (pySetItem st name value)
    | _ => throw (.typeError "attribute name must be string")

/-- `BeneDict(d)` for a mapping `d`: run `__init__` on an empty store. -/
def beneConstruct (entries : List (PyVal × PyVal)) :
    Except PyErr (List (PyVal × PyVal)) :=
  beneInitLoop [] entries

mutual

/-- The per-value conversion of `ezdict_to_dict`: a `BeneDict` value
recurses (producing a plain dict); a list or tuple value rebuilds a
sequence via `type(value)(...)`, so the sequence kind is preserved here,
converting exactly the elements that are `BeneDict` instances; anything
else passes through.  The recursive `ezdict_to_dict` call appears as
`ezLoop []`, its definition. -/
def ezConvert (value : PyVal) : PyVal :=
  match value with
  | .vbene es => .vdict (ezLoop [] es)
  | .vlist xs => .vlist (ezConvertSeq xs)
  | .vtuple xs => .vtuple (ezConvertSeq xs)
  | v => v

/-- The generator `ezdict_to_dict(v) if isinstance(v, BeneDict) else v`
over the elements of a sequence.  Only `BeneDict` instances are
converted (`OrderedBeneDict` is not a `BeneDict` subclass). -/
def ezConvertSeq (xs : List PyVal) : List PyVal :=
  match xs with
  | [] => []
  | .vbene es :: rest => .vdict (ezLoop [] es) :: ezConvertSeq rest
  | x :: rest => x :: ezConvertSeq rest

/-- The loop of `ezdict_to_dict`: `d = {}` then `d[k] = ...` for each
entry of `dict.items(easy_dict)`. -/
def ezLoop (d : List (PyVal × PyVal)) (entries : List (PyVal × PyVal)) :
    List (PyVal × PyVal) :=
  match entries with
  | [] => d
  | (k, value) :: rest => ezLoop (pySetItem d k (ezConvert value)) rest

end

/-- `ezdict_to_dict(easy_dict)`: recursively convert a `BeneDict` (given
by its entry list) back to a plain nested dict.  `BeneDict.to_dict`
returns exactly this. -/
def ezdict_to_dict (entries : List (PyVal × PyVal)) : List (PyVal × PyVal) :=
  ezLoop [] entries

/-! ## OrderedBeneDict (src/benedict/ordered.py)

`OrderedBeneDict.__new__` computes `cls._PROTECTED_METHODS` reflectively:
for every `attr_name` in `dir(cls)` that does not start with an
underscore, is not itself `builtin_`-prefixed and is callable, it binds
`builtin_<attr_name>` to the attribute and records that protected name.
For the class `OrderedBeneDict` those public callables are the twelve
public `OrderedDict` methods plus the twelve methods defined in the class
body, listed below in `dir`'s alphabetical order. -/

/-- The public callable attribute names of `OrderedBeneDict`
(`dir(cls)` order) whose `builtin_` forms become protected. -/
def _OrderedBeneDict_public_methods : List String :=
  ["clear", "copy", "deepcopy", "dump_file", "dump_json_file",
   "dump_json_str", "dump_yaml_file", "dump_yaml_str", "fromkeys", "get",
   "items", "keys", "load_file", "load_json_file", "load_json_str",
   "load_yaml_file", "load_yaml_str", "move_to_end", "pop", "popitem",
   "setdefault", "to_dict", "update", "values"]

/-- `cls._PROTECTED_METHODS` as computed by `OrderedBeneDict.__new__`. -/
def _OrderedBeneDict_PROTECTED_METHODS : List String :=
  _OrderedBeneDict_public_methods.map (fun m => "builtin_" ++ m)

/-- The protected-name test of `OrderedBeneDict.__setattr__`:
`name in cls._PROTECTED_METHODS`. -/
def obeneIsProtectedName : PyVal → Bool
  | .vstr s => _OrderedBeneDict_PROTECTED_METHODS.contains s
  | _ => false

/-- The `ValueError` message of `OrderedBeneDict.__setattr__` for a
protected name. -/
def obeneProtectedMsg (name : PyVal) : String :=
  "Cannot override `" ++ (match name with | .vstr s => s | _ => "") ++
    "()`: OrderedBeneDict protected method"

mutual

/-- The per-element conversion inside the sequence branch of
`OrderedBeneDict.__setattr__`: `cls(x) if isinstance(x, abc.Mapping)
else x`.  Constructing an `OrderedBeneDict` from a mapping runs
`__init__` over its items, i.e. `obeneInitLoop [] entries`. -/
def obeneNormElem (x : PyVal) : Except PyErr PyVal :=
  match x with
  | .vdict es => .vobene <$> obeneInitLoop [] es
  | .vbene es => .vobene <$> obeneInitLoop [] es
  | .vobene es => .vobene <$> obeneInitLoop [] es
  | x => pure x

/-- Element-wise traversal of the generator fed to `type(value)(...)`. -/
def obeneNormList (xs : List PyVal) : Except PyErr (List PyVal) :=
  match xs with
  | [] => pure []
  | x :: rest => do
      let x' ← obeneNormElem x
      let rest' ← obeneNormList rest
      pure (x' :: rest')

/-- The value-normalization step of `OrderedBeneDict.__setattr__`: a list
or tuple value becomes `type(value)(...)` — the original sequence kind is
preserved — with mapping elements converted; a mapping value becomes
`cls(value)`, an `OrderedBeneDict`; anything else passes through. -/
def obeneNormalizeValue (v : PyVal) : Except PyErr PyVal :=
  match v with
  | .vlist xs => .vlist <$> obeneNormList xs
  | .vtuple xs => .vtuple <$> obeneNormList xs
  | .vdict es => .vobene <$> obeneInitLoop [] es
  | .vbene es => .vobene <$> obeneInitLoop [] es
  | .vobene es => .vobene <$> obeneInitLoop [] es
  | v => pure v

/-- The loop of `OrderedBeneDict.__init__` over the items of a mapping
argument: `for k, v in d_items: self.__setattr__(k, v)`.  This is a
direct method call (no `setattr` builtin), so non-string keys reach
`__setattr__`; its body is inlined here: protected-name check, value
normalization, the attribute write only `if isinstance(name, str)`
(`# support non-string keys`), and the item write always. -/
def obeneInitLoop (st : List (PyVal × PyVal)) (entries : List (PyVal × PyVal)) :
    Except PyErr (List (PyVal × PyVal)) :=
  match entries with
  | [] => pure st
  | (k, v) :: rest =>
      if obeneIsProtectedName k then throw (.valueError (obeneProtectedMsg k))
      else do
        let v' ← obeneNormalizeValue v
        obeneInitLoop (pySetItem st k v') rest

end

/-- `OrderedBeneDict.__setattr__(name, value)` (also `__setitem__`):
refuse protected names with `ValueError`, normalize the value preserving
sequence kinds, then write the instance attribute only for string names
and the mapping entry always — non-string keys are supported and never
raise. -/
def obeneSetattr (st : List (PyVal × PyVal)) (name : PyVal) (value : PyVal) :
    Except PyErr (List (PyVal × PyVal)) :=
  if obeneIsProtectedName name then throw (.valueError (obeneProtectedMsg name))
  else do
    let value ← obeneNormalizeValue value
    pure (pySetItem st name value)

/-- `OrderedBeneDict(d)` for a mapping `d`. -/
def obeneConstruct (entries : List (PyVal × PyVal)) :
    Except PyErr (List (PyVal × PyVal)) :=
  obeneInitLoop [] entries

/-! ## The default-merging engine (src/benedict/config.py)

String primitives used by config.py (`str.lower`, `str.strip`,
`str.split(',')`, `'.'.join`, the `_enum\[(.*)\]_` regular expression)
are modelled directly over character lists; each matches the Python
behaviour on the ASCII inputs the module works with. -/

/-- Python `s.lower()` (ASCII range, which covers every marker string). -/
def pyLower (s : String) : String :=
  ⟨s.data.map Char.toLower⟩

/-- Python `s.strip()`: remove leading and trailing whitespace. -/
def pyStrip (s : String) : String :=
  ⟨((s.data.dropWhile Char.isWhitespace).reverse.dropWhile
      Char.isWhitespace).reverse⟩

/-- Python `s.split(',')`: split on every comma, keeping empty pieces. -/
def pySplitCommaAux : List Char → List Char → List String
  | [], acc => [⟨acc.reverse⟩]
  | c :: rest, acc =>
      if c = ',' then ⟨acc.reverse⟩ :: pySplitCommaAux rest []
      else pySplitCommaAux rest (c :: acc)

/-- Python `s.split(',')`. -/
def pySplitComma (s : String) : List String :=
  pySplitCommaAux s.data []

/-- Python `'.'.join(parts)` for a list of strings. -/
def joinDots : List String → String
  | [] => ""
  | [s] => s
  | s :: rest => s ++ "." ++ joinDots rest

/-- The group of `re.match(r'_enum\[(.*)\]_', s)` relative to a suffix
`cs`: the longest newline-free prefix `g` of `cs` with
`cs = g ++ ']' :: '_' :: rest` (greedy `.*`, where `.` excludes the
newline and `match` anchors only the start). -/
def enumSplit : List Char → Option (List Char)
  | [] => none
  | c :: rest =>
      if c = '\n' then none
      else
        match enumSplit rest with
        | some g => some (c :: g)
        | none =>
            match c, rest with
            | ']', '_' :: _ => some []
            | _, _ => none

/-- `_enum_marker.match(s)` and its `group(1)`: `s` must start with
`_enum[` and the group runs greedily up to the last following `]_`. -/
def enumMatchGroup (s : String) : Option String :=
  if "_enum[".data.isPrefixOf s.data then
    (enumSplit (s.data.drop 6)).map (fun g => (⟨g⟩ : String))
  else none

/-- `_req_type_check(value)` from config.py: `None` (here `none`) for a
non-placeholder value, otherwise the predicate the placeholder denotes.
The `_enum[...]_` branch raises `ConfigError` when the option group is
empty, and its predicate is Python `x in enum_options` over the stripped
comma-split options of the *lowercased* marker — equality of `x` with an
option string is `False` for every non-string `x`. -/
def _req_type_check (value : PyVal) : Except PyErr (Option (PyVal → Bool)) :=
  match value with
  | .vstr s =>
      let v := pyLower s
      if v = "_object_" then pure (some (fun _ => true))
      else if v = "_singleton_" then
        pure (some (fun x => !(pyIsList x || pyIsDict x)))
      else if v = "_list_" then pure (some pyIsList)
      else if v = "_dict_" then pure (some pyIsDict)
      else if v = "_int_" then pure (some pyIsInt)
      else if v = "_float_" then pure (some pyIsFloat)
      else if v = "_num_" then pure (some (fun x => pyIsInt x || pyIsFloat x))
      else if v = "_str_" then pure (some pyIsStr)
      else if v = "_bool_" then pure (some pyIsBool)
      else
        match enumMatchGroup v with
        | some opts =>
            if opts = "" then throw (.configError "_enum[...]_ cannot be empty")
            else
              let enum_options := (pySplitComma opts).map pyStrip
              pure (some (fun x =>
                match x with
                | .vstr t => enum_options.contains t
                | _ => false))
        | none => pure none
  | _ => pure none

/-- `_is_req(value)`: `_req_type_check(value) is not None` (propagating
the empty-enum `ConfigError`). -/
def _is_req (value : PyVal) : Except PyErr Bool := do
  pure (← _req_type_check value).isSome

mutual

/-- `_has_req(config)`: scan the entries; a required placeholder value
anywhere through *nested dicts* yields `True`.  Sequences are not
entered: a placeholder hiding inside a list or tuple is not seen. -/
def _has_req : List (PyVal × PyVal) → Except PyErr Bool
  | [] => pure false
  | (_, val) :: rest => do
      if (← _is_req val) then pure true
      else do
        let sub ← _has_req_value val
        if sub then pure true else _has_req rest

/-- The `elif isinstance(val, dict): if _has_req(val)` step of
`_has_req`: recurse into a mapping value, `False` for anything else. -/
def _has_req_value : PyVal → Except PyErr Bool
  | .vdict es => _has_req es
  | .vbene es => _has_req es
  | .vobene es => _has_req es
  | _ => pure false

end

/-- The string items of a key-trace list, as required by `'.'.join`; a
non-string key raises `TypeError` exactly as the join would. -/
def pyStrItems : List PyVal → Except PyErr (List String)
  | [] => pure []
  | .vstr s :: rest => do pure (s :: (← pyStrItems rest))
  | _ :: _ => throw (.typeError "sequence item: expected str instance")

/-- `_trace_key(dict_trace, key)`:
`'key "{}" '.format('.'.join(dict_trace + [key]))`. -/
def _trace_key (dict_trace : List PyVal) (key : PyVal) : Except PyErr String := do
  pure ("key \"" ++ joinDots (← pyStrItems (dict_trace ++ [key])) ++ "\" ")

mutual

/-- Python `repr` of the embedded values (as used by `str.format` on
containers).  The float branch prints the opaque tag; no verified claim
inspects a message containing a float or a container repr. -/
def pyRepr : PyVal → String
  | .vstr s => "\x27" ++ s ++ "\x27"
  | .vint n => toString n
  | .vbool b => if b then "True" else "False"
  | .vfloat n d => toString n ++ "/" ++ toString d
  | .vnone => "None"
  | .vlist xs => "[" ++ pyReprSeq xs ++ "]"
  | .vtuple xs => "(" ++ pyReprSeq xs ++ ")"
  | .vdict es => "\x7b" ++ pyReprEntries es ++ "\x7d"
  | .vbene es => "\x7b" ++ pyReprEntries es ++ "\x7d"
  | .vobene es => "\x7b" ++ pyReprEntries es ++ "\x7d"

/-- Comma-separated `repr`s of sequence elements. -/
def pyReprSeq : List PyVal → String
  | [] => ""
  | [x] => pyRepr x
  | x :: rest => pyRepr x ++ ", " ++ pyReprSeq rest

/-- Comma-separated `repr: repr` pairs of mapping entries. -/
def pyReprEntries : List (PyVal × PyVal) → String
  | [] => ""
  | [(k, v)] => pyRepr k ++ ": " ++ pyRepr v
  | (k, v) :: rest => pyRepr k ++ ": " ++ pyRepr v ++ ", " ++ pyReprEntries rest

end

/-- Python `str(v)` as used by `str.format`: a string stays bare,
everything else goes through `repr`. -/
def pyStr : PyVal → String
  | .vstr s => s
  | v => pyRepr v

/-- The message table of `_raise_req_error` (its if/elif chain): the
human name of the kind a placeholder requires, `none` on the
`assert False` fallthrough. -/
def _req_msg (v : String) : Option String :=
  if v = "_object_" then some "filled"
  else if v = "_singleton_" then some "a singleton (non-list/dict)"
  else if v = "_list_" then some "a list"
  else if v = "_dict_" then some "a dict"
  else if v = "_int_" then some "an integer"
  else if v = "_float_" then some "a float"
  else if v = "_num_" then some "a numeric value"
  else if v = "_str_" then some "a string"
  else if v = "_bool_" then some "a boolean"
  else
    match enumMatchGroup v with
    | some opts => some ("an enum in [" ++ opts ++ "]")
    | none => none

/-- `_raise_req_error(key, value, dict_trace, prefix_msg)`: always
raises.  `value.lower()` is taken first (an `AttributeError` on a
non-string models Python's behaviour; the callers only pass placeholder
strings), then the message is selected (`assert False` on fallthrough),
and finally
`ConfigError('{}{}must be {}.'.format(prefix, _trace_key(...), msg))`. -/
def _raise_req_error (key : PyVal) (value : PyVal) (dict_trace : List PyVal)
    (prefix_msg : String) : Except PyErr α := do
  let s ← (match value with
    | .vstr s => pure s
    | _ => throw (.attributeError "object has no attribute lower"))
  match _req_msg (pyLower s) with
  | some msg => do
      let pm := if prefix_msg = "" then "" else prefix_msg ++ " "
      let tk ← _trace_key dict_trace key
      throw (.configError (pm ++ tk ++ "must be " ++ msg ++ "."))
  | none => throw .assertionError

/-- The mapping object returned by the recursive `_fill_default_config`
call: the source mutates `value` in place and stores the same object, so
the result keeps `value`'s concrete mapping variant.  (Every claim below
exercises this with plain dicts, where the overridden `__setitem__` of a
`BeneDict`-typed sub-tree — which would renormalize — cannot fire.) -/
def sameMappingAs (orig : PyVal) (es : List (PyVal × PyVal)) : PyVal :=
  match orig with
  | .vbene _ => .vbene es
  | .vobene _ => .vobene es
  | _ => .vdict es

/-! `_fill_default_config(config, default_config, dict_trace)`: the
recursive default-merging loop over the entries of `default_config`,
mutating and returning `config`.  This is the spec's
`Merge(config, defaults, pathTrace)`.  Branches, in source order:

* key absent from `config`: a required placeholder raises
  `Required entry missing:`; a sub-dict default containing a required
  placeholder (as found by `_has_req`) raises the `Sub-dict under key`
  error; otherwise the default is copied in verbatim.
* key present, required-placeholder default: a placeholder value must be
  `==` to the default (else the `inherited` error); otherwise the
  placeholder's predicate is applied to the value, raising `Wrong type:`
  on failure and leaving `config` untouched on success.
* key present, concrete default: a sub-dict value against a
  non-sub-dict default raises the singleton-shape error; a sub-dict
  default against a non-sub-dict value raises the sub-dict-shape error;
  two sub-dicts recurse with the extended trace and store the result;
  two non-sub-dicts leave the user's value as is. -/
mutual

/-- The body of the `for key, default_value in default_config.items()`
loop of `_fill_default_config`, for one entry; returns the updated
`config`. -/
def _fill_entry (config : List (PyVal × PyVal)) (key : PyVal)
    (default_value : PyVal) (dict_trace : List PyVal) :
    Except PyErr (List (PyVal × PyVal)) :=
        (match pyLookup config key with
         | none => do
             if (← _is_req default_value) then
               _raise_req_error key default_value dict_trace
                 "Required entry missing:"
             else do
               let hsub ← _has_req_value default_value
               if hsub then do
                 let tk ← _trace_key dict_trace key
                 throw (.configError ("Sub-dict under key \"" ++ tk ++
                   "\" contains a required config: " ++
                   pyRepr default_value ++ "."))
               else pure (pySetItem config key default_value)
         | some value => do
             if (← _is_req default_value) then
               if (← _is_req value) then
                 if pyBeq value default_value then pure config
                 else do
                   let tk ← _trace_key dict_trace key
                   throw (.configError ("inherited " ++ tk ++ ": \"" ++
                     pyStr value ++ "\" must match default \"" ++
                     pyStr default_value ++ "\""))
               else do
                 let checker ← _req_type_check default_value
                 match checker with
                 | some ch =>
                     if !(ch value) then
                       _raise_req_error key default_value dict_trace
                         "Wrong type:"
                     else pure config
                 | none => throw (.typeError "NoneType object is not callable")
             else
               if pyIsDict value && !(pyIsDict default_value) then do
                 let tk ← _trace_key dict_trace key
                 throw (.configError (tk ++
                   "must be a singleton instead of a sub-dict"))
               else
                 match default_value with
                 | .vdict des => do
                     if !(pyIsDict value) then do
                       let tk ← _trace_key dict_trace key
                       throw (.configError (tk ++
                         "must have a sub-dict instead of a singleton"))
                     else do
                       let merged ← _fill_default_config (dictEntries value)
                         des (dict_trace ++ [key])
                       pure (pySetItem config key (sameMappingAs value merged))
                 | .vbene des => do
                     if !(pyIsDict value) then do
                       let tk ← _trace_key dict_trace key
                       throw (.configError (tk ++
                         "must have a sub-dict instead of a singleton"))
                     else do
                       let merged ← _fill_default_config (dictEntries value)
                         des (dict_trace ++ [key])
                       pure (pySetItem config key (sameMappingAs value merged))
                 | .vobene des => do
                     if !(pyIsDict value) then do
                       let tk ← _trace_key dict_trace key
                       throw (.configError (tk ++
                         "must have a sub-dict instead of a singleton"))
                     else do
                       let merged ← _fill_default_config (dictEntries value)
                         des (dict_trace ++ [key])
                       pure (pySetItem config key (sameMappingAs value merged))
                 | _ => pure config)
termination_by structural default_value

/-- `_fill_default_config(config, default_config, dict_trace)` proper:
fold `_fill_entry` over the entries of `default_config`. -/
def _fill_default_config (config : List (PyVal × PyVal))
    (default_config : List (PyVal × PyVal)) (dict_trace : List PyVal) :
    Except PyErr (List (PyVal × PyVal)) :=
  match default_config with
  | [] => pure config
  | (key, default_value) :: rest => do
      let config ← _fill_entry config key default_value dict_trace
      _fill_default_config config rest dict_trace
termination_by structural default_config

end

/-- The message of `Config.__getattr__` for a key that normal attribute
lookup does not find. -/
def config_missing_msg (key : PyVal) : String :=
  "config key \"" ++ pyStr key ++ "\" missing."

/-- `Config.__getattr__(key)` on the data-attribute path:
`super().__getattribute__(key)` resolves a stored entry (the instance
`__dict__` mirrors the mapping for stored string keys); when it raises
`AttributeError` the method raises
`ConfigError('config key "{}" missing.'.format(key))` instead.  Keys
naming genuine class attributes (the container methods) resolve to those
instead and are outside this model's use. -/
def configGetattr (st : List (PyVal × PyVal)) (key : PyVal) :
    Except PyErr PyVal :=
  match pyLookup st key with
  | some v => pure v
  | none => throw (.configError (config_missing_msg key))

/-! ## Attribute resolution and the frozen `builtin_` aliases

`_add_protected_methods` runs once at import time:

    for protected, normal in zip(_BeneDict_PROTECTED_METHODS,
                                 _BeneDict_NATIVE_METHODS):
        setattr(BeneDict, protected, getattr(BeneDict, normal))

`zip` truncates to the length of the protected list, so each
`builtin_<m>` is bound to the class attribute `<m>` — the original,
un-shadowable implementation. -/

/-- The `(protected, normal)` pairs traversed by
`_add_protected_methods` (with `zip`'s truncation). -/
def beneAliasBindings : List (String × String) :=
  _BeneDict_PROTECTED_METHODS.zip _BeneDict_NATIVE_METHODS

/-- What a class attribute of `BeneDict` is bound to after
`_add_protected_methods`, named by the operation whose implementation it
carries: each native operation name carries its own implementation, and
each `builtin_` alias carries the implementation of the original
operation it was zipped with. -/
def beneClassAttr (name : String) : Option String :=
  if _BeneDict_method_names.contains name then some name
  else List.lookup name beneAliasBindings

/-- Result of Python attribute lookup on a `BeneDict` instance. -/
inductive AttrResult where
  | data (v : PyVal)
  | method (original : String)
  | missing

/-- `getattr(obj, name)` on a `BeneDict` instance: class functions and
method descriptors are non-data descriptors, so an instance `__dict__`
entry (mirrored here by the mapping entries, which `__setattr__` keeps
identical for string keys) shadows them; otherwise the class attribute —
identified by the operation whose implementation it is bound to — is
returned. -/
def beneGetattr (st : List (PyVal × PyVal)) (name : String) : AttrResult :=
  match pyLookup st (.vstr name) with
  | some v => .data v
  | none =>
      match beneClassAttr name with
      | some orig => .method orig
      | none => .missing

/-- One attempted data assignment: on success the new state, on a raised
`ValueError`/`TypeError` the unchanged state (both writes of
`__setattr__` happen after every check, so a raising call writes
nothing). -/
def beneTrySet (st : List (PyVal × PyVal)) (op : PyVal × PyVal) :
    List (PyVal × PyVal) :=
  match beneSetattr st op.1 op.2 with
  | .ok st' => st'
  | .error _ => st

/-- Any finite sequence of attempted data assignments, applied in
order. -/
def beneRunSets (st : List (PyVal × PyVal)) (ops : List (PyVal × PyVal)) :
    List (PyVal × PyVal) :=
  ops.foldl beneTrySet st

/-! ## Round-trip well-formedness

The predicate under which the `to_dict`-after-construct round trip is
claimed: JSON-representable data (string keys, scalar / nested-mapping /
list values, no tuples, no already-wrapped trees), keys unique at every
mapping level, and — the proviso the protected-name check forces — no
key anywhere equal to a `builtin_`-prefixed reserved name. -/

mutual

/-- JSON-representable value whose mapping keys are all admissible. -/
def benedictSafeVal : PyVal → Bool
  | .vstr _ => true
  | .vint _ => true
  | .vbool _ => true
  | .vfloat _ _ => true
  | .vnone => true
  | .vlist xs => benedictSafeList xs
  | .vtuple _ => false
  | .vdict es => benedictSafeEntries es
  | .vbene _ => false
  | .vobene _ => false

/-- All elements of a sequence are safe. -/
def benedictSafeList : List PyVal → Bool
  | [] => true
  | x :: rest => benedictSafeVal x && benedictSafeList rest

/-- All entries of a mapping are safe: string, non-reserved, unrepeated
keys with safe values. -/
def benedictSafeEntries : List (PyVal × PyVal) → Bool
  | [] => true
  | (k, v) :: rest =>
      (match k with
       | .vstr s => !(_BeneDict_PROTECTED_METHODS.contains s)
       | _ => false)
      && (pyLookup rest k).isNone
      && benedictSafeVal v
      && benedictSafeEntries rest

end

/-- Key discipline of a dict entry list as a real CPython dict built from
string keys has it: every key a string, never repeated later. -/
def safeKeys : List (PyVal × PyVal) → Bool
  | [] => true
  | (k, _) :: rest => pyIsStr k && (pyLookup rest k).isNone && safeKeys rest

/-- The element conversion `ezConvertSeq` applies pointwise:
`ezdict_to_dict(v) if isinstance(v, BeneDict) else v`. -/
def ezSeqElem : PyVal → PyVal
  | .vbene es => .vdict (ezLoop [] es)
  | x => x

/-- Spec-side predicate: the entry list (of a `defaults` sub-tree)
contains a required placeholder somewhere, descending through nested
mappings only — the reach the spec ascribes to the sub-tree scan. -/
inductive HasReqPlaceholder : List (PyVal × PyVal) → Prop where
  | here {k v rest} (hp : ∃ p, _req_type_check v = .ok (some p)) :
      HasReqPlaceholder ((k, v) :: rest)
  | nestedDict {k es rest} (h : HasReqPlaceholder es) :
      HasReqPlaceholder ((k, .vdict es) :: rest)
  | nestedBene {k es rest} (h : HasReqPlaceholder es) :
      HasReqPlaceholder ((k, .vbene es) :: rest)
  | nestedObene {k es rest} (h : HasReqPlaceholder es) :
      HasReqPlaceholder ((k, .vobene es) :: rest)
  | there {k v rest} (h : HasReqPlaceholder rest) :
      HasReqPlaceholder ((k, v) :: rest)

/-! ## Theorems -/

/-! ### Helper lemmas on the dict primitives -/

theorem pyBeq_vstr_right {k : PyVal} {s : String}
    (h : pyBeq k (.vstr s) = true) : k = .vstr s := by
  cases k <;> simp_all [pyBeq]

theorem pyBeq_vstr_comm (s : String) (a : PyVal) :
    pyBeq (.vstr s) a = pyBeq a (.vstr s) := by
  cases a <;> simp only [pyBeq]
  exact Bool.eq_iff_iff.mpr (by constructor <;> (intro h; simp at h; simp [h]))

theorem pySetItem_of_lookup_none {st : List (PyVal × PyVal)} {k : PyVal}
    (v : PyVal) (h : pyLookup st k = none) :
    pySetItem st k v = st ++ [(k, v)] := by
  induction st with
  | nil => rfl
  | cons hd tl ih =>
      obtain ⟨k', v'⟩ := hd
      simp only [pyLookup] at h
      by_cases hb : pyBeq k' k
      · simp [hb] at h
      · simp only [pySetItem, hb, Bool.false_eq_true, if_false, List.cons_append,
          List.cons.injEq, true_and]
        exact ih (by simpa [hb] using h)

theorem pyLookup_append (a b : List (PyVal × PyVal)) (k : PyVal) :
    pyLookup (a ++ b) k
      = match pyLookup a k with
        | some v => some v
        | none => pyLookup b k := by
  induction a with
  | nil => simp [pyLookup]
  | cons hd tl ih =>
      obtain ⟨k', v'⟩ := hd
      by_cases hb : pyBeq k' k
      · simp [pyLookup, hb]
      · simp [pyLookup, hb, ih]

theorem pyBeq_false_of_lookup_none {l : List (PyVal × PyVal)} {k k' v' : PyVal}
    (h : pyLookup l k = none) (hm : (k', v') ∈ l) : pyBeq k' k = false := by
  induction l with
  | nil => simp at hm
  | cons hd tl ih =>
      obtain ⟨k'', v''⟩ := hd
      simp only [pyLookup] at h
      by_cases hb : pyBeq k'' k
      · simp [hb] at h
      · rcases List.mem_cons.mp hm with heq | htl
        · cases heq
          simpa using hb
        · exact ih (by simpa [hb] using h) htl

theorem pyLookup_setItem_vstr (st : List (PyVal × PyVal)) (s p : String)
    (v : PyVal) :
    pyLookup (pySetItem st (.vstr s) v) (.vstr p)
      = if s = p then some v else pyLookup st (.vstr p) := by
  induction st with
  | nil =>
      simp only [pySetItem, pyLookup, pyBeq]
      by_cases h : s = p <;> simp [h]
  | cons hd tl ih =>
      obtain ⟨k', v'⟩ := hd
      by_cases hb : pyBeq k' (.vstr s)
      · have hk : k' = .vstr s := pyBeq_vstr_right hb
        subst hk
        by_cases hsp : s = p
        · subst hsp
          simp [pySetItem, pyLookup, pyBeq, hb]
        · simp [pySetItem, pyLookup, pyBeq, hb, hsp]
      · have hlk : pyBeq k' (.vstr p) = true → ¬s = p := by
          intro hbp hsp
          subst hsp
          exact absurd hbp (by simpa using hb)
        simp only [pySetItem, hb, Bool.false_eq_true, if_false, pyLookup]
        by_cases hbp : pyBeq k' (.vstr p)
        · simp [hbp, hlk hbp]
        · simp [hbp, ih]

theorem pyLookup_isNone_of_fst_eq {a b : List (PyVal × PyVal)} (k : PyVal)
    (h : a.map Prod.fst = b.map Prod.fst) :
    (pyLookup a k).isNone = (pyLookup b k).isNone := by
  induction a generalizing b with
  | nil =>
      cases b
      · rfl
      · simp at h
  | cons hd tl ih =>
      cases b with
      | nil => simp at h
      | cons hd' tl' =>
          obtain ⟨k1, v1⟩ := hd
          obtain ⟨k2, v2⟩ := hd'
          simp only [List.map_cons, List.cons.injEq] at h
          obtain ⟨hk, ht⟩ := h
          cases hk
          by_cases hb : pyBeq k1 k
          · simp [pyLookup, hb]
          · simp [pyLookup, hb, ih ht]

theorem safeKeys_of_fst_eq {a b : List (PyVal × PyVal)}
    (h : a.map Prod.fst = b.map Prod.fst) (hs : safeKeys a = true) :
    safeKeys b = true := by
  induction a generalizing b with
  | nil =>
      cases b
      · rfl
      · simp at h
  | cons hd tl ih =>
      cases b with
      | nil => simp at h
      | cons hd' tl' =>
          obtain ⟨k1, v1⟩ := hd
          obtain ⟨k2, v2⟩ := hd'
          simp only [List.map_cons, List.cons.injEq] at h
          obtain ⟨hk, ht⟩ := h
          cases hk
          simp only [safeKeys, Bool.and_eq_true] at hs ⊢
          exact ⟨⟨hs.1.1, by rw [← pyLookup_isNone_of_fst_eq k1 ht]; exact hs.1.2⟩,
            ih ht hs.2⟩

/-- Sanity: for a string key, one step of the `__init__` loop is exactly
`__setattr__` followed by the rest of the loop. -/
theorem beneInitLoop_cons_str (st : List (PyVal × PyVal)) (s : String)
    (v : PyVal) (rest : List (PyVal × PyVal)) :
    beneInitLoop st ((.vstr s, v) :: rest)
      = (beneSetattr st (.vstr s) v) >>= (fun st' => beneInitLoop st' rest) := by
  simp only [beneInitLoop, beneSetattr]
  by_cases h : beneIsProtectedName (.vstr s)
  · simp only [h, if_true]
    rfl
  · simp only [h, Bool.false_eq_true, if_false]
    cases hv : beneNormalizeValue v <;> rfl

/-- Sanity: one step of the `OrderedBeneDict.__init__` loop is exactly
`__setattr__` followed by the rest of the loop (for every key, string or
not). -/
theorem obeneInitLoop_cons (st : List (PyVal × PyVal)) (k v : PyVal)
    (rest : List (PyVal × PyVal)) :
    obeneInitLoop st ((k, v) :: rest)
      = (obeneSetattr st k v) >>= (fun st' => obeneInitLoop st' rest) := by
  simp only [obeneInitLoop, obeneSetattr]
  by_cases h : obeneIsProtectedName k
  · simp only [h, if_true]
    rfl
  · simp only [h, Bool.false_eq_true, if_false]
    cases hv : obeneNormalizeValue v <;> rfl

/-! ### C1 - name protection on Set -/

/-- C1, counterexample: the claim says `Set` with any *plain* reserved
operation name (here `keys`) raises a usage error; in the code only the
`builtin_`-prefixed names are in `_BeneDict_PROTECTED_METHODS`, so the
assignment succeeds and shadows the method. -/
theorem C1_counterexample :
    beneSetattr [] (.vstr "keys") (.vint 3) = .ok [(.vstr "keys", .vint 3)] := rfl

/-- C1, amended: on both variants, `Set` raises `ValueError` exactly for
the `builtin_`-prefixed reserved names, for any value and any state;
a plain reserved operation name is accepted and stored (shadowing). -/
theorem C1_amended_protection :
    (∀ (st : List (PyVal × PyVal)) (v : PyVal) (p : String),
        _BeneDict_PROTECTED_METHODS.contains p = true →
        beneSetattr st (.vstr p) v
          = .error (.valueError
              ("Cannot override `" ++ p ++ "`: BeneDict protected method")))
    ∧ (∀ (st : List (PyVal × PyVal)) (v : PyVal) (p : String),
        _OrderedBeneDict_PROTECTED_METHODS.contains p = true →
        obeneSetattr st (.vstr p) v
          = .error (.valueError
              ("Cannot override `" ++ p ++ "()`: OrderedBeneDict protected method")))
    ∧ (∀ (st : List (PyVal × PyVal)) (m : String),
        m ∈ _BeneDict_method_names →
        beneSetattr st (.vstr m) (.vint 0)
          = .ok (pySetItem st (.vstr m) (.vint 0)))
    ∧ (∀ (st : List (PyVal × PyVal)) (m : String),
        m ∈ _OrderedBeneDict_public_methods →
        obeneSetattr st (.vstr m) (.vint 0)
          = .ok (pySetItem st (.vstr m) (.vint 0))) := by
  refine ⟨?_, ?_, ?_, ?_⟩
  · intro st v p hp
    have hp' : p ∈ _BeneDict_PROTECTED_METHODS := by simpa using hp
    simp only [beneSetattr, beneIsProtectedName, beneProtectedMsg]
    rw [if_pos (by simpa using hp)]
    rfl
  · intro st v p hp
    simp only [obeneSetattr, obeneIsProtectedName, obeneProtectedMsg]
    rw [if_pos (by simpa using hp)]
    rfl
  · intro st m hm
    have hnp : _BeneDict_PROTECTED_METHODS.contains m = false := by
      have hall : _BeneDict_method_names.all
          (fun x => !(_BeneDict_PROTECTED_METHODS.contains x)) = true := by decide
      simpa using List.all_eq_true.mp hall m hm
    simp only [beneSetattr, beneIsProtectedName]
    rw [if_neg (by simpa using hnp)]
    rfl
  · intro st m hm
    have hnp : _OrderedBeneDict_PROTECTED_METHODS.contains m = false := by
      have hall : _OrderedBeneDict_public_methods.all
          (fun x => !(_OrderedBeneDict_PROTECTED_METHODS.contains x)) = true := by
        decide
      simpa using List.all_eq_true.mp hall m hm
    simp only [obeneSetattr, obeneIsProtectedName]
    rw [if_neg (by simpa using hnp)]
    rfl

/-- C1, witness: the amended theorem applied at concrete inputs. -/
theorem C1_amended_protection_witness :
    beneSetattr [] (.vstr "builtin_items") (.vint 7)
      = .error (.valueError
          "Cannot override `builtin_items`: BeneDict protected method")
    ∧ obeneSetattr [] (.vstr "builtin_items") (.vint 7)
      = .error (.valueError
          "Cannot override `builtin_items()`: OrderedBeneDict protected method")
    ∧ beneSetattr [] (.vstr "items") (.vint 0) = .ok [(.vstr "items", .vint 0)] :=
  ⟨C1_amended_protection.1 [] (.vint 7) "builtin_items" rfl,
   C1_amended_protection.2.1 [] (.vint 7) "builtin_items" rfl,
   C1_amended_protection.2.2.1 [] "items" (by decide)⟩

/-! ### C3 - normalization of assigned values -/

/-- C3, counterexample: the claim says a tuple assigned into a BeneDict
stays a tuple; `BeneDict.__setattr__` builds a list comprehension, so the
stored value is a list. -/
theorem C3_counterexample :
    beneSetattr [] (.vstr "a") (.vtuple [.vint 1])
      = .ok [(.vstr "a", .vlist [.vint 1])] := rfl

/-- C3, amended: a mapping value is stored as an AttributeTree of the
container's variant in both classes; `OrderedBeneDict` preserves the
sequence kind of list and tuple values while `BeneDict` stores both as
lists; in both classes the sequence elements that are mappings are
converted and all other elements pass through unchanged. -/
theorem C3_amended_normalization :
    (∀ (st : List (PyVal × PyVal)) (s : String) (es M : List (PyVal × PyVal)),
        _BeneDict_PROTECTED_METHODS.contains s = false →
        beneInitLoop [] es = .ok M →
        beneSetattr st (.vstr s) (.vdict es)
          = .ok (pySetItem st (.vstr s) (.vbene M)))
    ∧ (∀ (st : List (PyVal × PyVal)) (s : String) (es M : List (PyVal × PyVal)),
        _OrderedBeneDict_PROTECTED_METHODS.contains s = false →
        obeneInitLoop [] es = .ok M →
        obeneSetattr st (.vstr s) (.vdict es)
          = .ok (pySetItem st (.vstr s) (.vobene M)))
    ∧ (∀ (st : List (PyVal × PyVal)) (s : String) (xs ys : List PyVal),
        _BeneDict_PROTECTED_METHODS.contains s = false →
        beneNormList xs = .ok ys →
        beneSetattr st (.vstr s) (.vtuple xs)
          = .ok (pySetItem st (.vstr s) (.vlist ys))
        ∧ beneSetattr st (.vstr s) (.vlist xs)
          = .ok (pySetItem st (.vstr s) (.vlist ys)))
    ∧ (∀ (st : List (PyVal × PyVal)) (s : String) (xs ys : List PyVal),
        _OrderedBeneDict_PROTECTED_METHODS.contains s = false →
        obeneNormList xs = .ok ys →
        obeneSetattr st (.vstr s) (.vtuple xs)
          = .ok (pySetItem st (.vstr s) (.vtuple ys))
        ∧ obeneSetattr st (.vstr s) (.vlist xs)
          = .ok (pySetItem st (.vstr s) (.vlist ys)))
    ∧ (∀ x : PyVal, pyIsDict x = false →
        beneNormElem x = .ok x ∧ obeneNormElem x = .ok x)
    ∧ (∀ (es M : List (PyVal × PyVal)), beneInitLoop [] es = .ok M →
        beneNormElem (.vdict es) = .ok (.vbene M))
    ∧ (∀ (es M : List (PyVal × PyVal)), obeneInitLoop [] es = .ok M →
        obeneNormElem (.vdict es) = .ok (.vobene M)) := by
  refine ⟨?_, ?_, ?_, ?_, ?_, ?_, ?_⟩
  · intro st s es M hs hM
    simp only [beneSetattr, beneIsProtectedName]
    rw [if_neg (by simpa using hs)]
    simp [beneNormalizeValue, hM]
  · intro st s es M hs hM
    simp only [obeneSetattr, obeneIsProtectedName]
    rw [if_neg (by simpa using hs)]
    simp [obeneNormalizeValue, hM]
  · intro st s xs ys hs hys
    constructor <;>
      (simp only [beneSetattr, beneIsProtectedName]
       rw [if_neg (by simpa using hs)]
       simp [beneNormalizeValue, hys])
  · intro st s xs ys hs hys
    constructor <;>
      (simp only [obeneSetattr, obeneIsProtectedName]
       rw [if_neg (by simpa using hs)]
       simp [obeneNormalizeValue, hys])
  · intro x hx
    cases x <;> simp_all [pyIsDict, beneNormElem, obeneNormElem] <;> rfl
  · intro es M hM
    simp [beneNormElem, hM]
  · intro es M hM
    simp [obeneNormElem, hM]

/-- C3, witness: the amended theorem applied at concrete inputs. -/
theorem C3_amended_normalization_witness :
    beneSetattr [] (.vstr "a") (.vdict [(.vstr "b", .vint 1)])
      = .ok [(.vstr "a", .vbene [(.vstr "b", .vint 1)])]
    ∧ obeneSetattr [] (.vstr "a") (.vtuple [.vdict [(.vstr "b", .vint 1)], .vint 2])
      = .ok [(.vstr "a", .vtuple [.vobene [(.vstr "b", .vint 1)], .vint 2])]
    ∧ beneNormElem (.vint 2) = .ok (.vint 2) :=
  ⟨C3_amended_normalization.1 [] "a" [(.vstr "b", .vint 1)] [(.vstr "b", .vint 1)]
      rfl rfl,
   (C3_amended_normalization.2.2.2.1 [] "a"
      [.vdict [(.vstr "b", .vint 1)], .vint 2]
      [.vobene [(.vstr "b", .vint 1)], .vint 2] rfl rfl).1,
   (C3_amended_normalization.2.2.2.2.1 (.vint 2) rfl).1⟩

/-! ### C8 - non-string keys -/

/-- C8, evaluation at the failing input: constructing a `BeneDict` (the
src/benedict/__init__.py class) from `{-1.3: 'yo'}` raises `TypeError`,
because its `__setattr__` performs an unguarded `object.__setattr__`;
the `OrderedBeneDict` construction — whose setter guards the attribute
write with `isinstance(name, str)` (`# support non-string keys`), the
behaviour the repository's own `demo_benedict.py` asserts — succeeds and
keeps the key.  (The float `-1.3` is the opaque tag `-13/10`.) -/
theorem C8_divergence :
    beneConstruct [(.vfloat (-13) 10, .vstr "yo")]
      = .error (.typeError "attribute name must be string")
    ∧ obeneConstruct [(.vfloat (-13) 10, .vstr "yo")]
      = .ok [(.vfloat (-13) 10, .vstr "yo")]
    ∧ obeneConstruct
        [(.vint (-10), .vdict [(.vstr "e2", .vint 106)]), (.vstr "a", .vint 1)]
      = .ok [(.vint (-10), .vobene [(.vstr "e2", .vint 106)]), (.vstr "a", .vint 1)] :=
  ⟨rfl, rfl, rfl⟩

/-! ### C10 - boolean values against the numeric placeholders -/

/-- C10: `Merge({"a": True}, {"a": "_int_"})` succeeds because Python's
`bool` is a subclass of `int`; `_num_` likewise accepts booleans; the
`_bool_` predicate accepts exactly booleans; `_singleton_` accepts
exactly the non-list, non-dict values. -/
theorem C10_bool_placeholders :
    _fill_default_config [(.vstr "a", .vbool true)] [(.vstr "a", .vstr "_int_")] []
      = .ok [(.vstr "a", .vbool true)]
    ∧ (∃ p, _req_type_check (.vstr "_int_") = .ok (some p)
        ∧ ∀ b, p (.vbool b) = true)
    ∧ (∃ p, _req_type_check (.vstr "_num_") = .ok (some p)
        ∧ ∀ b, p (.vbool b) = true)
    ∧ (∃ p, _req_type_check (.vstr "_bool_") = .ok (some p)
        ∧ ∀ v, p v = true ↔ ∃ b, v = .vbool b)
    ∧ (∃ p, _req_type_check (.vstr "_singleton_") = .ok (some p)
        ∧ ∀ v, p v = true ↔ (pyIsList v = false ∧ pyIsDict v = false)) := by
  refine ⟨rfl, ⟨pyIsInt, rfl, fun b => rfl⟩,
    ⟨fun x => pyIsInt x || pyIsFloat x, rfl, fun b => rfl⟩,
    ⟨pyIsBool, rfl, fun v => ?_⟩,
    ⟨fun x => !(pyIsList x || pyIsDict x), rfl, fun v => ?_⟩⟩
  · cases v <;> simp [pyIsBool]
  · cases v <;> simp [pyIsList, pyIsDict]

/-! ### Helper lemmas for the merge theorems -/

@[simp] theorem exc_bind_ok {α β : Type} (a : α) (f : α → Except PyErr β) :
    (Except.ok a : Except PyErr α) >>= f = f a := rfl

@[simp] theorem exc_bind_err {α β : Type} (e : PyErr) (f : α → Except PyErr β) :
    (Except.error e : Except PyErr α) >>= f = Except.error e := rfl

@[simp] theorem exc_pure {α : Type} (a : α) :
    (pure a : Except PyErr α) = Except.ok a := rfl

@[simp] theorem exc_map_ok {α β : Type} (g : α → β) (a : α) :
    (g <$> (Except.ok a : Except PyErr α)) = Except.ok (g a) := rfl

@[simp] theorem exc_map_err {α β : Type} (g : α → β) (e : PyErr) :
    (g <$> (Except.error e : Except PyErr α)) = Except.error e := rfl

theorem pyStrItems_append_single {trace : List PyVal} {ts : List String}
    (h : pyStrItems trace = .ok ts) (ks : String) :
    pyStrItems (trace ++ [.vstr ks]) = .ok (ts ++ [ks]) := by
  induction trace generalizing ts with
  | nil =>
      simp only [pyStrItems] at h
      cases h
      rfl
  | cons hd tl ih =>
      cases hd
      case vstr s =>
        simp only [pyStrItems] at h
        cases htl : pyStrItems tl with
        | error e =>
            rw [htl] at h
            simp at h
        | ok ts' =>
            rw [htl] at h
            simp only [exc_bind_ok, exc_pure, Except.ok.injEq] at h
            subst h
            simp [pyStrItems, ih htl]
      all_goals simp [pyStrItems] at h

theorem fill_singleton (c : List (PyVal × PyVal)) (k dv : PyVal)
    (trace : List PyVal) :
    _fill_default_config c [(k, dv)] trace = _fill_entry c k dv trace := by
  simp only [_fill_default_config]
  cases h : _fill_entry c k dv trace <;> simp [h, _fill_default_config]

theorem _is_req_of_check_some {dv : PyVal} {p : PyVal → Bool}
    (h : _req_type_check dv = .ok (some p)) : _is_req dv = .ok true := by
  simp [_is_req, h]

theorem _is_req_of_check_none {dv : PyVal}
    (h : _req_type_check dv = .ok none) : _is_req dv = .ok false := by
  simp [_is_req, h]

/-! ### C5 - predicate application for present keys with required defaults -/

/-- C5: a key present in both trees whose default is a required
placeholder and whose value is not itself a placeholder gets the
placeholder's predicate applied: on success the config is returned
untouched (in particular `Merge({"a": 5}, {"a": "_int_"})` returns
`{"a": 5}`); on failure the `Wrong type:` ConfigError names the expected
kind and the full dotted path; the `_enum[x, y, z]_` predicate is
membership in its comma-separated option list. -/
theorem C5_required_predicate :
    (∀ (c : List (PyVal × PyVal)) (k v dv : PyVal) (checker : PyVal → Bool)
        (trace : List PyVal),
        pyLookup c k = some v →
        _req_type_check dv = .ok (some checker) →
        _req_type_check v = .ok none →
        checker v = true →
        _fill_default_config c [(k, dv)] trace = .ok c)
    ∧ (∀ (c : List (PyVal × PyVal)) (v : PyVal) (ds ks kind : String)
        (checker : PyVal → Bool) (trace : List PyVal) (ts : List String),
        pyLookup c (.vstr ks) = some v →
        _req_type_check (.vstr ds) = .ok (some checker) →
        _req_type_check v = .ok none →
        checker v = false →
        _req_msg (pyLower ds) = some kind →
        pyStrItems trace = .ok ts →
        _fill_default_config c [(.vstr ks, .vstr ds)] trace
          = .error (.configError (("Wrong type:" ++ " ") ++
              ("key \"" ++ joinDots (ts ++ [ks]) ++ "\" ") ++
              "must be " ++ kind ++ ".")))
    ∧ _fill_default_config [(.vstr "a", .vint 5)] [(.vstr "a", .vstr "_int_")] []
        = .ok [(.vstr "a", .vint 5)]
    ∧ (∃ p, _req_type_check (.vstr "_enum[x, y, z]_") = .ok (some p)
        ∧ ∀ v, p v = true ↔ v ∈ [PyVal.vstr "x", PyVal.vstr "y", PyVal.vstr "z"]) := by
  refine ⟨?_, ?_, rfl, ?_⟩
  · intro c k v dv checker trace hlook hdv hv hcheck
    rw [fill_singleton]
    simp only [_fill_entry, hlook, _is_req_of_check_some hdv,
      _is_req_of_check_none hv, exc_bind_ok, if_true, if_false,
      Bool.false_eq_true, hdv, hcheck]
    simp
  · intro c v ds ks kind checker trace ts hlook hdv hv hcheck hkind hts
    rw [fill_singleton]
    simp only [_fill_entry, hlook, _is_req_of_check_some hdv,
      _is_req_of_check_none hv, exc_bind_ok, if_true, if_false,
      Bool.false_eq_true, hdv, hcheck]
    simp only [Bool.not_false, if_true, _raise_req_error, hkind, exc_bind_ok,
      exc_pure, _trace_key, pyStrItems_append_single hts ks]
    rw [if_neg (by decide : ¬("Wrong type:" : String) = "")]
    rfl
  · refine ⟨fun x => match x with
      | .vstr t => (["x", "y", "z"] : List String).contains t
      | _ => false, rfl, fun v => ?_⟩
    cases v <;> simp

/-- C5, witness: both universal parts applied at concrete inputs. -/
theorem C5_required_predicate_witness :
    _fill_default_config [(.vstr "a", .vint 5)] [(.vstr "a", .vstr "_int_")] []
      = .ok [(.vstr "a", .vint 5)]
    ∧ _fill_default_config [(.vstr "a", .vstr "not-an-int")]
        [(.vstr "a", .vstr "_int_")] []
      = .error (.configError "Wrong type: key \"a\" must be an integer.") :=
  ⟨C5_required_predicate.1 [(.vstr "a", .vint 5)] (.vstr "a") (.vint 5)
      (.vstr "_int_") pyIsInt [] rfl rfl rfl rfl,
   C5_required_predicate.2.1 [(.vstr "a", .vstr "not-an-int")]
      (.vstr "not-an-int") "_int_" "a" "an integer" pyIsInt [] []
      rfl rfl rfl rfl rfl rfl⟩

/-! ### C6 - merge recursion and pass-through -/

/-- C6: with a key in both trees and two sub-trees, Merge recurses with
the extended path and stores the result; with two non-sub-trees the
user's value is kept untouched; a key absent from config with a concrete
non-required default is copied verbatim; keys absent from defaults are
never touched (the loop walks only `defaults`); and the spec's example
`Merge({"a": {"b": 1}}, {"a": {"b": 2, "c": 3}})` returns
`{"a": {"b": 1, "c": 3}}`. -/
theorem C6_merge_recursion :
    (∀ (c : List (PyVal × PyVal)) (k : PyVal)
        (vs ds : List (PyVal × PyVal)) (trace : List PyVal),
        pyLookup c k = some (.vdict vs) →
        _fill_default_config c [(k, .vdict ds)] trace
          = (_fill_default_config vs ds (trace ++ [k])).map
              (fun m => pySetItem c k (.vdict m)))
    ∧ (∀ (c : List (PyVal × PyVal)) (k v dv : PyVal) (trace : List PyVal),
        pyLookup c k = some v →
        _req_type_check dv = .ok none →
        pyIsDict v = false →
        pyIsDict dv = false →
        _fill_default_config c [(k, dv)] trace = .ok c)
    ∧ (∀ (c : List (PyVal × PyVal)) (k dv : PyVal) (trace : List PyVal),
        pyLookup c k = none →
        _req_type_check dv = .ok none →
        _has_req_value dv = .ok false →
        _fill_default_config c [(k, dv)] trace
          = .ok (pySetItem c k dv))
    ∧ (∀ (c : List (PyVal × PyVal)) (trace : List PyVal),
        _fill_default_config c [] trace = .ok c)
    ∧ _fill_default_config
        [(.vstr "a", .vdict [(.vstr "b", .vint 1)])]
        [(.vstr "a", .vdict [(.vstr "b", .vint 2), (.vstr "c", .vint 3)])] []
      = .ok [(.vstr "a", .vdict [(.vstr "b", .vint 1), (.vstr "c", .vint 3)])] := by
  refine ⟨?_, ?_, ?_, fun c trace => rfl, rfl⟩
  · intro c k vs ds trace hlook
    rw [fill_singleton]
    simp only [_fill_entry, hlook]
    have hd : _is_req (.vdict ds) = .ok false := rfl
    simp only [hd, exc_bind_ok, Bool.false_eq_true, if_false, pyIsDict,
      Bool.not_true, Bool.and_false, dictEntries]
    cases hm : _fill_default_config vs ds (trace ++ [k]) <;>
      simp [hm, sameMappingAs, Except.map]
  · intro c k v dv trace hlook hdv hv hdvd
    rw [fill_singleton]
    simp only [_fill_entry, hlook, _is_req_of_check_none hdv, exc_bind_ok,
      Bool.false_eq_true, if_false, hv, hdvd, Bool.not_false, Bool.and_true]
    cases dv <;> simp_all [pyIsDict]
  · intro c k dv trace hlook hdv hhr
    rw [fill_singleton]
    simp only [_fill_entry, hlook, _is_req_of_check_none hdv, exc_bind_ok,
      Bool.false_eq_true, if_false, hhr]
    simp

/-- C6, witness: the recursion and copy parts applied concretely. -/
theorem C6_merge_recursion_witness :
    _fill_default_config [(.vstr "a", .vdict [(.vstr "b", .vint 1)])]
        [(.vstr "a", .vdict [(.vstr "c", .vint 3)])] []
      = (_fill_default_config [(.vstr "b", .vint 1)] [(.vstr "c", .vint 3)]
          [PyVal.vstr "a"]).map
          (fun m => pySetItem [(.vstr "a", .vdict [(.vstr "b", .vint 1)])]
            (.vstr "a") (.vdict m))
    ∧ _fill_default_config [(.vstr "a", .vint 1)] [(.vstr "a", .vint 2)] []
      = .ok [(.vstr "a", .vint 1)]
    ∧ _fill_default_config [] [(.vstr "a", .vint 2)] []
      = .ok [(.vstr "a", .vint 2)] :=
  ⟨C6_merge_recursion.1 [(.vstr "a", .vdict [(.vstr "b", .vint 1)])]
      (.vstr "a") [(.vstr "b", .vint 1)] [(.vstr "c", .vint 3)] [] rfl,
   C6_merge_recursion.2.1 [(.vstr "a", .vint 1)] (.vstr "a") (.vint 1)
      (.vint 2) [] rfl rfl rfl rfl,
   C6_merge_recursion.2.2.1 [] (.vstr "a") (.vint 2) [] rfl rfl rfl⟩

/-! ### C4 - required placeholders under an absent key -/

/-- C4, counterexample: the claim says a required placeholder anywhere
inside the default sub-tree, *including inside sequences*, makes Merge
raise; but `_has_req` never descends into lists or tuples, so the
placeholder `"_int_"` sitting inside a list is not seen and the default
is copied silently. -/
theorem C4_counterexample :
    _is_req (.vstr "_int_") = .ok true
    ∧ _fill_default_config []
        [(.vstr "a", .vdict [(.vstr "b", .vlist [.vstr "_int_"])])] []
      = .ok [(.vstr "a", .vdict [(.vstr "b", .vlist [.vstr "_int_"])])] :=
  ⟨rfl, rfl⟩

/-- C4, amended: for a key absent from config, a required-placeholder
default raises the `Required entry missing:` ConfigError with the dotted
path and the expected kind (in particular `Merge({}, {"a": "_int_"})`);
a sub-tree default containing a required placeholder at any depth
*through nested mappings* is reported by `_has_req` (never mapped to
`.ok false`) and makes Merge raise the sub-dict ConfigError instead of
copying; placeholders only inside sequences are not detected. -/
theorem C4_required_missing :
    (∀ (c : List (PyVal × PyVal)) (ds ks kind : String)
        (checker : PyVal → Bool) (trace : List PyVal) (ts : List String),
        pyLookup c (.vstr ks) = none →
        _req_type_check (.vstr ds) = .ok (some checker) →
        _req_msg (pyLower ds) = some kind →
        pyStrItems trace = .ok ts →
        _fill_default_config c [(.vstr ks, .vstr ds)] trace
          = .error (.configError (("Required entry missing:" ++ " ") ++
              ("key \"" ++ joinDots (ts ++ [ks]) ++ "\" ") ++
              "must be " ++ kind ++ ".")))
    ∧ (∀ (es : List (PyVal × PyVal)), HasReqPlaceholder es →
        ∀ b, _has_req es = .ok b → b = true)
    ∧ (∀ (c : List (PyVal × PyVal)) (es : List (PyVal × PyVal))
        (ks : String) (trace : List PyVal) (ts : List String),
        pyLookup c (.vstr ks) = none →
        _has_req es = .ok true →
        pyStrItems trace = .ok ts →
        _fill_default_config c [(.vstr ks, .vdict es)] trace
          = .error (.configError ("Sub-dict under key \"" ++
              ("key \"" ++ joinDots (ts ++ [ks]) ++ "\" ") ++
              "\" contains a required config: " ++ pyRepr (.vdict es) ++ ".")))
    ∧ _fill_default_config [] [(.vstr "a", .vstr "_int_")] []
      = .error (.configError "Required entry missing: key \"a\" must be an integer.") := by
  refine ⟨?_, ?_, ?_, rfl⟩
  · intro c ds ks kind checker trace ts hlook hdv hkind hts
    rw [fill_singleton]
    simp only [_fill_entry, hlook, _is_req_of_check_some hdv, exc_bind_ok,
      if_true]
    simp only [_raise_req_error, hkind, exc_bind_ok, exc_pure, _trace_key,
      pyStrItems_append_single hts ks]
    rw [if_neg (by decide : ¬("Required entry missing:" : String) = "")]
    rfl
  · intro es h
    induction h with
    | @here k v rest hp =>
        obtain ⟨p, hp⟩ := hp
        intro b hb
        simp only [_has_req, _is_req_of_check_some hp, exc_bind_ok, if_true,
          exc_pure, Except.ok.injEq] at hb
        exact hb.symm
    | @nestedDict k es' rest h ih =>
        intro b hb
        have hv : _is_req (PyVal.vdict es') = .ok false := rfl
        rw [show _has_req ((k, PyVal.vdict es') :: rest)
            = (do
                let b1 ← _is_req (PyVal.vdict es')
                if b1 then pure true
                else do
                  let sub ← _has_req_value (PyVal.vdict es')
                  if sub then pure true else _has_req rest) from rfl,
          hv] at hb
        rw [show _has_req_value (PyVal.vdict es') = _has_req es' from rfl] at hb
        cases hs : _has_req es' with
        | error e =>
            rw [hs] at hb
            simp at hb
        | ok sb =>
            rw [hs] at hb
            have hsb := ih sb hs
            subst hsb
            simpa using hb
    | @nestedBene k es' rest h ih =>
        intro b hb
        have hv : _is_req (PyVal.vbene es') = .ok false := rfl
        rw [show _has_req ((k, PyVal.vbene es') :: rest)
            = (do
                let b1 ← _is_req (PyVal.vbene es')
                if b1 then pure true
                else do
                  let sub ← _has_req_value (PyVal.vbene es')
                  if sub then pure true else _has_req rest) from rfl,
          hv] at hb
        rw [show _has_req_value (PyVal.vbene es') = _has_req es' from rfl] at hb
        cases hs : _has_req es' with
        | error e =>
            rw [hs] at hb
            simp at hb
        | ok sb =>
            rw [hs] at hb
            have hsb := ih sb hs
            subst hsb
            simpa using hb
    | @nestedObene k es' rest h ih =>
        intro b hb
        have hv : _is_req (PyVal.vobene es') = .ok false := rfl
        rw [show _has_req ((k, PyVal.vobene es') :: rest)
            = (do
                let b1 ← _is_req (PyVal.vobene es')
                if b1 then pure true
                else do
                  let sub ← _has_req_value (PyVal.vobene es')
                  if sub then pure true else _has_req rest) from rfl,
          hv] at hb
        rw [show _has_req_value (PyVal.vobene es') = _has_req es' from rfl] at hb
        cases hs : _has_req es' with
        | error e =>
            rw [hs] at hb
            simp at hb
        | ok sb =>
            rw [hs] at hb
            have hsb := ih sb hs
            subst hsb
            simpa using hb
    | @there k v rest h ih =>
        intro b hb
        rw [show _has_req ((k, v) :: rest)
            = (do
                let b1 ← _is_req v
                if b1 then pure true
                else do
                  let sub ← _has_req_value v
                  if sub then pure true else _has_req rest) from rfl] at hb
        cases hv : _is_req v with
        | error e =>
            rw [hv] at hb
            simp at hb
        | ok b1 =>
            rw [hv] at hb
            cases b1 with
            | true => simpa using hb
            | false =>
                simp only [exc_bind_ok, Bool.false_eq_true, if_false] at hb
                cases hsv : _has_req_value v with
                | error e =>
                    rw [hsv] at hb
                    simp at hb
                | ok sb =>
                    rw [hsv] at hb
                    cases sb with
                    | true => simpa using hb
                    | false =>
                        simp only [exc_bind_ok, Bool.false_eq_true,
                          if_false] at hb
                        exact ih b hb
  · intro c es ks trace ts hlook hhr hts
    rw [fill_singleton]
    simp only [_fill_entry, hlook]
    have hd : _is_req (.vdict es) = .ok false := rfl
    have hv : _has_req_value (.vdict es) = _has_req es := rfl
    simp only [hd, exc_bind_ok, Bool.false_eq_true, if_false, hv, hhr, if_true,
      _trace_key, pyStrItems_append_single hts ks, exc_bind_ok, exc_pure]
    rfl

/-- C4, witness: the three universal parts applied at concrete inputs. -/
theorem C4_required_missing_witness :
    _fill_default_config [] [(.vstr "zz", .vstr "_dict_")] []
      = .error (.configError "Required entry missing: key \"zz\" must be a dict.")
    ∧ (true = true)
    ∧ _fill_default_config [] [(.vstr "a", .vdict [(.vstr "b", .vstr "_int_")])] []
      = .error (.configError
          "Sub-dict under key \"key \"a\" \" contains a required config: \x7b\x27b\x27: \x27_int_\x27\x7d.") :=
  ⟨C4_required_missing.1 [] "_dict_" "zz" "a dict" pyIsDict [] [] rfl rfl rfl rfl,
   C4_required_missing.2.1 [(.vstr "b", .vstr "_int_")]
      (HasReqPlaceholder.here ⟨pyIsInt, rfl⟩) true rfl,
   C4_required_missing.2.2.1 [] [(.vstr "b", .vstr "_int_")] "a" [] []
      rfl rfl rfl⟩

/-! ### C9 - error-message contents -/

/-- C9, counterexample: the malformed empty-enum marker raises a
ConfigError whose message is the constant `_enum[...]_ cannot be empty`,
which contains neither the offending key `zz` nor any dotted path, so
not every merge ConfigError carries the path. -/
theorem C9_counterexample :
    _fill_default_config [] [(.vstr "zz", .vstr "_enum[]_")] []
      = .error (.configError "_enum[...]_ cannot be empty")
    ∧ ¬ (("key \"zz\"").data <:+: ("_enum[...]_ cannot be empty").data)
    ∧ ¬ (("zz").data <:+: ("_enum[...]_ cannot be empty").data) :=
  ⟨rfl, by decide, by decide⟩

/-- Infix from an explicit decomposition. -/
theorem infix_of_decomp {l p a b : List Char} (h : l = a ++ (p ++ b)) :
    p <:+: l :=
  ⟨a, b, by rw [h, List.append_assoc]⟩

/-- C9, amended: the required-missing and wrong-type errors (raised
through `_raise_req_error`) always carry the full dotted key path in the
`key "..."` form and name the expected kind as `must be <kind>`; the
nested-merge wrong-type, inherited-mismatch and shape-conflict errors
carry the dotted path too (shown at depth two); but the malformed
empty-enum ConfigError is a constant message with no path, and
`Config.__getattr__`'s missing-key ConfigError names only the bare key,
not the dotted path from the root. -/
theorem C9_amended_messages :
    (∀ (ks ds prefix_msg kind : String) (trace : List PyVal) (ts : List String),
        _req_msg (pyLower ds) = some kind →
        pyStrItems trace = .ok ts →
        ∃ msg, (_raise_req_error (.vstr ks) (.vstr ds) trace prefix_msg :
            Except PyErr Unit) = .error (.configError msg)
          ∧ ("key \"" ++ joinDots (ts ++ [ks]) ++ "\"").data <:+: msg.data
          ∧ ("must be " ++ kind).data <:+: msg.data)
    ∧ _req_type_check (.vstr "_enum[]_")
        = .error (.configError "_enum[...]_ cannot be empty")
    ∧ (∀ (st : List (PyVal × PyVal)) (key : PyVal),
        pyLookup st key = none →
        configGetattr st key
          = .error (.configError ("config key \"" ++ pyStr key ++ "\" missing.")))
    ∧ _fill_default_config [(.vstr "a", .vdict [(.vstr "b", .vstr "x")])]
        [(.vstr "a", .vdict [(.vstr "b", .vstr "_int_")])] []
      = .error (.configError "Wrong type: key \"a.b\" must be an integer.")
    ∧ _fill_default_config [(.vstr "a", .vdict [(.vstr "b", .vstr "_str_")])]
        [(.vstr "a", .vdict [(.vstr "b", .vstr "_int_")])] []
      = .error (.configError
          "inherited key \"a.b\" : \"_str_\" must match default \"_int_\"")
    ∧ _fill_default_config [(.vstr "a", .vdict [(.vstr "b", .vint 1)])]
        [(.vstr "a", .vdict [(.vstr "b", .vdict [(.vstr "c", .vint 2)])])] []
      = .error (.configError
          "key \"a.b\" must have a sub-dict instead of a singleton") := by
  refine ⟨?_, rfl, ?_, rfl, rfl, rfl⟩
  · intro ks ds prefix_msg kind trace ts hkind hts
    refine ⟨(if prefix_msg = "" then "" else prefix_msg ++ " ") ++
      ("key \"" ++ joinDots (ts ++ [ks]) ++ "\" ") ++ "must be " ++ kind ++ ".",
      ?_, ?_, ?_⟩
    · simp only [_raise_req_error, hkind, exc_bind_ok, exc_pure, _trace_key,
        pyStrItems_append_single hts ks]
      rfl
    · refine infix_of_decomp (a :=
        (if prefix_msg = "" then "" else prefix_msg ++ " ").data)
        (b := (" must be " ++ kind ++ ".").data) ?_
      simp [List.append_assoc]
    · refine infix_of_decomp (a :=
        ((if prefix_msg = "" then "" else prefix_msg ++ " ") ++
          ("key \"" ++ joinDots (ts ++ [ks]) ++ "\" ")).data)
        (b := (".").data) ?_
      simp [List.append_assoc]
  · intro st key h
    simp [configGetattr, h, config_missing_msg]
    rfl

/-- C9, witness: the universal parts applied at concrete inputs. -/
theorem C9_amended_messages_witness :
    (_raise_req_error (.vstr "a") (.vstr "_int_") [] "Wrong type:" :
        Except PyErr Unit)
      = .error (.configError "Wrong type: key \"a\" must be an integer.")
    ∧ configGetattr [] (.vstr "b")
      = .error (.configError "config key \"b\" missing.") := by
  have h := C9_amended_messages.1 "a" "_int_" "Wrong type:" "an integer" [] []
    rfl rfl
  exact ⟨rfl, C9_amended_messages.2.2.1 [] (.vstr "b") rfl⟩

/-! ### C7 - frozen builtin_ aliases -/

theorem beneSetattr_ok_shape {st : List (PyVal × PyVal)} {k v : PyVal}
    {st' : List (PyVal × PyVal)} (h : beneSetattr st k v = .ok st') :
    ∃ s v', k = .vstr s ∧ _BeneDict_PROTECTED_METHODS.contains s = false
      ∧ st' = pySetItem st (.vstr s) v' := by
  by_cases hp : beneIsProtectedName k = true
  · rw [beneSetattr, if_pos hp] at h
    simp at h
  · rw [beneSetattr, if_neg hp] at h
    cases hn : beneNormalizeValue v with
    | error e =>
        rw [hn] at h
        simp at h
    | ok v'' =>
        rw [hn] at h
        simp only [exc_bind_ok] at h
        cases k with
        | vstr s =>
            refine ⟨s, v'', rfl, ?_, ?_⟩
            · simpa [beneIsProtectedName] using hp
            · simpa using h.symm
        | vint n => simp at h
        | vbool b => simp at h
        | vfloat a b => simp at h
        | vnone => simp at h
        | vlist xs => simp at h
        | vtuple xs => simp at h
        | vdict es => simp at h
        | vbene es => simp at h
        | vobene es => simp at h

theorem runSets_protected_lookup_none (ops : List (PyVal × PyVal))
    (st : List (PyVal × PyVal))
    (hst : ∀ p, _BeneDict_PROTECTED_METHODS.contains p = true →
        pyLookup st (.vstr p) = none) :
    ∀ p, _BeneDict_PROTECTED_METHODS.contains p = true →
      pyLookup (beneRunSets st ops) (.vstr p) = none := by
  induction ops generalizing st with
  | nil => exact hst
  | cons op rest ih =>
      have hst' : ∀ p, _BeneDict_PROTECTED_METHODS.contains p = true →
          pyLookup (beneTrySet st op) (.vstr p) = none := by
        intro p hp
        cases hset : beneSetattr st op.1 op.2 with
        | error e => simpa [beneTrySet, hset] using hst p hp
        | ok st' =>
            obtain ⟨s, v', hk, hcs, hshape⟩ := beneSetattr_ok_shape hset
            have hsp : ¬ s = p := by
              intro hh
              subst hh
              rw [hcs] at hp
              exact absurd hp (by simp)
            simp only [beneTrySet, hset]
            rw [hshape, pyLookup_setItem_vstr, if_neg hsp]
            exact hst p hp
      exact ih (beneTrySet st op) hst'

/-- C7: each `builtin_` alias is paired by `_add_protected_methods` with
the original operation bearing its unprefixed name (the `zip`
truncation), and after any sequence of attempted data assignments —
including ones that shadow the plain operation name — attribute lookup
of the alias still resolves to the original class implementation: an
alias can never be shadowed because `__setattr__` refuses to store any
`builtin_`-prefixed name. -/
theorem C7_frozen_aliases :
    beneAliasBindings = _BeneDict_method_names.map (fun m => ("builtin_" ++ m, m))
    ∧ (∀ (ops : List (PyVal × PyVal)) (m : String),
        m ∈ _BeneDict_method_names →
        beneGetattr (beneRunSets [] ops) ("builtin_" ++ m) = .method m) := by
  constructor
  · rfl
  · intro ops m hm
    have hcontains : _BeneDict_PROTECTED_METHODS.contains ("builtin_" ++ m)
        = true := by
      have hall : ∀ x ∈ _BeneDict_method_names,
          _BeneDict_PROTECTED_METHODS.contains ("builtin_" ++ x) = true := by
        decide
      exact hall m hm
    have hnone := runSets_protected_lookup_none ops []
      (fun p _ => rfl) ("builtin_" ++ m) hcontains
    have hclass : beneClassAttr ("builtin_" ++ m) = some m := by
      have hall : ∀ x ∈ _BeneDict_method_names,
          beneClassAttr ("builtin_" ++ x) = some x := by decide
      exact hall m hm
    simp [beneGetattr, hnone, hclass]

/-- C7, witness: after an assignment that shadows the plain name
`items`, the alias `builtin_items` still resolves to the original
operation while `items` resolves to the stored data. -/
theorem C7_frozen_aliases_witness :
    beneGetattr (beneRunSets [] [(.vstr "items", .vint 5)]) "builtin_items"
      = .method "items"
    ∧ beneGetattr (beneRunSets [] [(.vstr "items", .vint 5)]) "items"
      = .data (.vint 5) :=
  ⟨C7_frozen_aliases.2 [(.vstr "items", .vint 5)] "items" (by decide), rfl⟩

/-! ### C2 - the to_dict/construct round trip -/

theorem ezConvertSeq_cons (x : PyVal) (xs : List PyVal) :
    ezConvertSeq (x :: xs) = ezSeqElem x :: ezConvertSeq xs := by
  cases x <;> rfl

theorem safeEntries_safeKeys :
    ∀ es, benedictSafeEntries es = true → safeKeys es = true := by
  intro es h
  induction es with
  | nil => rfl
  | cons hd tl ih =>
      obtain ⟨k, v⟩ := hd
      simp only [benedictSafeEntries, Bool.and_eq_true] at h
      obtain ⟨⟨⟨hk, hfresh⟩, hv⟩, htl⟩ := h
      have hks : pyIsStr k = true := by
        cases k <;> simp_all [pyIsStr]
      simp [safeKeys, hks, hfresh, ih htl]

theorem ezLoop_of_safeKeys :
    ∀ (M d : List (PyVal × PyVal)), safeKeys M = true →
      (∀ p ∈ M, pyLookup d p.1 = none) →
      ezLoop d M = d ++ M.map (fun p => (p.1, ezConvert p.2)) := by
  intro M
  induction M with
  | nil => intro d _ _; simp [ezLoop]
  | cons hd tl ih =>
      intro d hsafe hfresh
      obtain ⟨k, value⟩ := hd
      simp only [safeKeys, Bool.and_eq_true] at hsafe
      obtain ⟨⟨hks, hfreshk⟩, htl⟩ := hsafe
      obtain ⟨s, rfl⟩ : ∃ s, k = PyVal.vstr s := by
        cases k <;> simp_all [pyIsStr]
      have hd0 : pyLookup d (PyVal.vstr s) = none :=
        hfresh (PyVal.vstr s, value) (List.mem_cons_self _ _)
      simp only [ezLoop]
      rw [pySetItem_of_lookup_none _ hd0]
      rw [ih (d ++ [(PyVal.vstr s, ezConvert value)]) htl ?_]
      · simp
      · intro p hp
        rw [pyLookup_append]
        rw [hfresh p (List.mem_cons_of_mem _ hp)]
        have hpk : pyBeq p.1 (PyVal.vstr s) = false :=
          pyBeq_false_of_lookup_none (by simpa using hfreshk) hp
        simp only [pyLookup, pyBeq_vstr_comm, hpk, Bool.false_eq_true, if_false]

theorem bene_dict_roundAux {es M : List (PyVal × PyVal)}
    (hsafe : benedictSafeEntries es = true)
    (hfst : M.map Prod.fst = es.map Prod.fst)
    (hconv : M.map (fun p => (p.1, ezConvert p.2)) = es) :
    ezLoop [] M = es := by
  have hkM : safeKeys M = true :=
    safeKeys_of_fst_eq hfst.symm (safeEntries_safeKeys es hsafe)
  rw [ezLoop_of_safeKeys M [] hkM (by intro p _; rfl)]
  simpa using hconv

mutual

theorem bene_rt_val (v : PyVal) (hs : benedictSafeVal v = true) :
    ∃ v', beneNormalizeValue v = .ok v' ∧ ezConvert v' = v := by
  cases v with
  | vstr s => exact ⟨.vstr s, rfl, rfl⟩
  | vint n => exact ⟨.vint n, rfl, rfl⟩
  | vbool b => exact ⟨.vbool b, rfl, rfl⟩
  | vfloat a b => exact ⟨.vfloat a b, rfl, rfl⟩
  | vnone => exact ⟨.vnone, rfl, rfl⟩
  | vlist xs =>
      obtain ⟨ys, h1, h2⟩ := bene_rt_list xs (by simpa [benedictSafeVal] using hs)
      exact ⟨.vlist ys, by simp [beneNormalizeValue, h1],
        by simp [ezConvert, h2]⟩
  | vtuple xs => exact absurd hs (by simp [benedictSafeVal])
  | vdict es =>
      have hse : benedictSafeEntries es = true := by
        simpa [benedictSafeVal] using hs
      obtain ⟨M, hM, hfst, hconv⟩ := bene_rt_entries es hse [] (fun p _ => rfl)
      have hM' : beneInitLoop [] es = .ok M := by simpa using hM
      refine ⟨.vbene M, by simp [beneNormalizeValue, hM'], ?_⟩
      have hez : ezLoop [] M = es := bene_dict_roundAux hse hfst hconv
      simp [ezConvert, hez]
  | vbene es => exact absurd hs (by simp [benedictSafeVal])
  | vobene es => exact absurd hs (by simp [benedictSafeVal])
termination_by sizeOf v
decreasing_by all_goals (simp_wf <;> subst_vars <;> simp <;> omega)

theorem bene_rt_elem (x : PyVal) (hs : benedictSafeVal x = true) :
    ∃ x', beneNormElem x = .ok x' ∧ ezSeqElem x' = x := by
  cases x with
  | vstr s => exact ⟨.vstr s, rfl, rfl⟩
  | vint n => exact ⟨.vint n, rfl, rfl⟩
  | vbool b => exact ⟨.vbool b, rfl, rfl⟩
  | vfloat a b => exact ⟨.vfloat a b, rfl, rfl⟩
  | vnone => exact ⟨.vnone, rfl, rfl⟩
  | vlist xs => exact ⟨.vlist xs, rfl, rfl⟩
  | vtuple xs => exact absurd hs (by simp [benedictSafeVal])
  | vdict es =>
      have hse : benedictSafeEntries es = true := by
        simpa [benedictSafeVal] using hs
      obtain ⟨M, hM, hfst, hconv⟩ := bene_rt_entries es hse [] (fun p _ => rfl)
      have hM' : beneInitLoop [] es = .ok M := by simpa using hM
      refine ⟨.vbene M, by simp [beneNormElem, hM'], ?_⟩
      have hez : ezLoop [] M = es := bene_dict_roundAux hse hfst hconv
      simp [ezSeqElem, hez]
  | vbene es => exact absurd hs (by simp [benedictSafeVal])
  | vobene es => exact absurd hs (by simp [benedictSafeVal])
termination_by sizeOf x
decreasing_by all_goals (simp_wf <;> subst_vars <;> simp <;> omega)

theorem bene_rt_list (xs : List PyVal) (hs : benedictSafeList xs = true) :
    ∃ ys, beneNormList xs = .ok ys ∧ ezConvertSeq ys = xs := by
  cases xs with
  | nil => exact ⟨[], rfl, rfl⟩
  | cons x rest =>
      have hx : benedictSafeVal x = true := by
        simp only [benedictSafeList, Bool.and_eq_true] at hs
        exact hs.1
      have hrest : benedictSafeList rest = true := by
        simp only [benedictSafeList, Bool.and_eq_true] at hs
        exact hs.2
      obtain ⟨x', hx1, hx2⟩ := bene_rt_elem x hx
      obtain ⟨ys, hy1, hy2⟩ := bene_rt_list rest hrest
      refine ⟨x' :: ys, by simp [beneNormList, hx1, hy1], ?_⟩
      rw [ezConvertSeq_cons, hx2, hy2]
termination_by sizeOf xs
decreasing_by all_goals (simp_wf <;> subst_vars <;> simp <;> omega)

theorem bene_rt_entries (es : List (PyVal × PyVal))
    (hs : benedictSafeEntries es = true) :
    ∀ st, (∀ p ∈ es, pyLookup st p.1 = none) →
    ∃ M, beneInitLoop st es = .ok (st ++ M)
      ∧ M.map Prod.fst = es.map Prod.fst
      ∧ M.map (fun p => (p.1, ezConvert p.2)) = es := by
  match es, hs with
  | [], _ => exact fun st _ => ⟨[], by simp [beneInitLoop], rfl, rfl⟩
  | (k, v) :: rest, hs =>
      intro st hfresh
      simp only [benedictSafeEntries, Bool.and_eq_true] at hs
      obtain ⟨⟨⟨hk, hfreshk⟩, hv⟩, hrest⟩ := hs
      obtain ⟨s, rfl⟩ : ∃ s, k = PyVal.vstr s := by
        cases k <;> simp_all
      have hprot : _BeneDict_PROTECTED_METHODS.contains s = false := by
        simpa using hk
      obtain ⟨v', hv1, hv2⟩ := bene_rt_val v hv
      have hd0 : pyLookup st (PyVal.vstr s) = none :=
        hfresh (PyVal.vstr s, v) (List.mem_cons_self _ _)
      have hfresh' : ∀ p ∈ rest,
          pyLookup (st ++ [(PyVal.vstr s, v')]) p.1 = none := by
        intro p hp
        rw [pyLookup_append, hfresh p (List.mem_cons_of_mem _ hp)]
        have hpk : pyBeq p.1 (PyVal.vstr s) = false :=
          pyBeq_false_of_lookup_none (by simpa using hfreshk) hp
        simp only [pyLookup, pyBeq_vstr_comm, hpk, Bool.false_eq_true, if_false]
      obtain ⟨M', hM1, hM2, hM3⟩ :=
        bene_rt_entries rest hrest (st ++ [(PyVal.vstr s, v')]) hfresh'
      refine ⟨(PyVal.vstr s, v') :: M', ?_, ?_, ?_⟩
      · have hloop : beneInitLoop st ((PyVal.vstr s, v) :: rest)
            = beneInitLoop (pySetItem st (PyVal.vstr s) v') rest := by
          simp only [beneInitLoop, beneIsProtectedName, hprot,
            Bool.false_eq_true, if_false, hv1, exc_bind_ok]
        rw [hloop, pySetItem_of_lookup_none _ hd0, hM1]
        simp
      · simpa using hM2
      · simpa [hv2] using hM3
termination_by sizeOf es
decreasing_by all_goals (simp_wf <;> subst_vars <;> simp <;> omega)

end

/-- C2, counterexample: a mapping of JSON-representable scalars whose
key happens to be the reserved alias `builtin_keys` cannot be
round-tripped - construction itself raises `ValueError`, so
`to_dict(Construct(m)) == m` fails for this `m`. -/
theorem C2_counterexample :
    beneConstruct [(.vstr "builtin_keys", .vint 1)]
      = .error (.valueError
          "Cannot override `builtin_keys`: BeneDict protected method") := rfl

/-- C2, amended: for every mapping of JSON-representable data (string
keys, scalar / nested-mapping / list values) in which no key at any
level is a `builtin_`-prefixed reserved name, construction succeeds and
`ezdict_to_dict` (i.e. `to_dict`) returns exactly the original mapping. -/
theorem C2_amended_roundtrip (m : List (PyVal × PyVal))
    (h : benedictSafeEntries m = true) :
    ∃ st, beneConstruct m = .ok st ∧ ezdict_to_dict st = m := by
  obtain ⟨M, hM, hfst, hconv⟩ := bene_rt_entries m h [] (fun p _ => rfl)
  refine ⟨M, by simpa [beneConstruct] using hM, ?_⟩
  show ezLoop [] M = m
  exact bene_dict_roundAux h hfst hconv

/-- C2, witness: the amended round trip applied to a concrete mapping
with a scalar, a nested mapping, and a list holding a mapping. -/
theorem C2_amended_roundtrip_witness :
    benedictSafeEntries
      [(.vstr "a", .vint 1),
       (.vstr "b", .vdict [(.vstr "c", .vstr "x")]),
       (.vstr "d", .vlist [.vdict [(.vstr "e", .vbool true)], .vnone])] = true
    ∧ ∃ st,
        beneConstruct
          [(.vstr "a", .vint 1),
           (.vstr "b", .vdict [(.vstr "c", .vstr "x")]),
           (.vstr "d", .vlist [.vdict [(.vstr "e", .vbool true)], .vnone])]
          = .ok st
        ∧ ezdict_to_dict st
          = [(.vstr "a", .vint 1),
             (.vstr "b", .vdict [(.vstr "c", .vstr "x")]),
             (.vstr "d", .vlist [.vdict [(.vstr "e", .vbool true)], .vnone])] :=
  ⟨rfl, C2_amended_roundtrip _ rfl⟩
